import Mathlib

/-!
Verification of the multi-provider AI orchestration layer of the `redoc`
repository (src/src/ai/fallback.ts, src/src/ai/orchestrator.ts and the four
provider adapters).  The TypeScript functions are shallowly embedded as pure
Lean functions; asynchronous effects (HTTP probes, provider operations) are
made explicit as outcome parameters, so that one call to an embedded function
corresponds to one deterministic run of the original code.
-/

namespace Redoc

/-- Provider identities (src/src/ai/types.ts, `ProviderId`).
`offline` is a sentinel, never a real adapter. -/
inductive ProviderId where
  | groq
  | gemini
  | cerebras
  | ollama
  | offline
deriving DecidableEq, Repr

/-- The configuration fields the AI layer reads (src/src/types.ts).
Every field is optional, as in the TypeScript config object; `providerOrder`
embeds `config.generation?.providerOrder`. -/
structure RedocConfig where
  groqApiKey : Option String := none
  geminiApiKey : Option String := none
  cerebrasApiKey : Option String := none
  ollamaUrl : Option String := none
  ollamaModel : Option String := none
  providerOrder : Option (List ProviderId) := none
deriving DecidableEq, Repr

/-- JavaScript truthiness of an optional string value: `Boolean(x)` is `false`
for `undefined` and for the empty string. -/
def truthy : Option String → Bool
  | none => false
  | some s => s ≠ ""

/-- `ProviderAvailability` (src/src/ai/types.ts). -/
structure ProviderAvailability where
  id : ProviderId
  configured : Bool
  available : Bool
  reason : Option String := none
deriving DecidableEq, Repr

/-- `isConfigured` of each adapter, dispatched on the identity
(groq.ts / gemini (part_005) / cerebras.ts / ollama.ts).  The `offline`
sentinel has no adapter; it is mapped to `false`. -/
def isConfiguredFor : ProviderId → RedocConfig → Bool
  | .groq, c => truthy c.groqApiKey
  | .gemini, c => truthy c.geminiApiKey
  | .cerebras, c => truthy c.cerebrasApiKey
  | .ollama, c => truthy c.ollamaUrl && truthy c.ollamaModel
  | .offline, _ => false

/-- Outcome of the one network probe an adapter may issue from `isAvailable`
(the `fetch` of `/api/tags` in ollama.ts): either an HTTP response with its
`ok` flag and status code, or a thrown error carrying `e?.message`
(`none` models an error without a message). -/
inductive ProbeOutcome where
  | resp (ok : Bool) (status : Nat)
  | err (msg : Option String)
deriving DecidableEq, Repr

/-- JavaScript `m || fallback` on an optional error message: `undefined` and
the empty string both fall through to the fallback. -/
def jsOrElse (m : Option String) (fallback : String) : String :=
  match m with
  | some s => if s = "" then fallback else s
  | none => fallback

/-- `OllamaProvider.isAvailable` (ollama.ts): unconfigured → immediate
failure record; configured → the result of the `/api/tags` probe. -/
def ollamaIsAvailable (c : RedocConfig) (po : ProbeOutcome) : ProviderAvailability :=
  if isConfiguredFor .ollama c = false then
    { id := .ollama, configured := false, available := false,
      reason := some "Missing ollamaUrl/ollamaModel" }
  else
    match po with
    | .resp true _ => { id := .ollama, configured := true, available := true }
    | .resp false status =>
        { id := .ollama, configured := true, available := false,
          reason := some ("Ollama not reachable (" ++ toString status ++ ")") }
    | .err m =>
        { id := .ollama, configured := true, available := false,
          reason := some (jsOrElse m "Ollama not reachable") }

/-- `GroqProvider.isAvailable` (groq.ts): the probe outcome parameter is
ignored because the source performs no network call at all. -/
def groqIsAvailable (c : RedocConfig) (_po : ProbeOutcome) : ProviderAvailability :=
  if isConfiguredFor .groq c = false then
    { id := .groq, configured := false, available := false, reason := some "Missing groqApiKey" }
  else
    { id := .groq, configured := true, available := true }

/-- `GeminiProvider.isAvailable` (part_005): no network call. -/
def geminiIsAvailable (c : RedocConfig) (_po : ProbeOutcome) : ProviderAvailability :=
  if isConfiguredFor .gemini c = false then
    { id := .gemini, configured := false, available := false, reason := some "Missing geminiApiKey" }
  else
    { id := .gemini, configured := true, available := true }

/-- `CerebrasProvider.isAvailable` (cerebras.ts): no network call. -/
def cerebrasIsAvailable (c : RedocConfig) (_po : ProbeOutcome) : ProviderAvailability :=
  if isConfiguredFor .cerebras c = false then
    { id := .cerebras, configured := false, available := false,
      reason := some "Missing cerebrasApiKey" }
  else
    { id := .cerebras, configured := true, available := true }

/-- The registered adapters, in the order of `ALL_PROVIDERS` (fallback.ts). -/
def ALL_PROVIDERS : List ProviderId := [.groq, .gemini, .cerebras, .ollama]

/-- A JavaScript exception value, as observed by a `.catch` handler:
`message` is `e?.message`. -/
structure JsError where
  message : Option String := none
deriving DecidableEq, Repr

/-- One adapter's contribution to `getAvailability` (fallback.ts): the
result of `p.isAvailable(config)` — which for a buggy adapter may be a
rejection — with a rejection caught and converted to a failure record,
exactly as the `.catch` in the source does. -/
def availRecord (c : RedocConfig)
    (outcome : ProviderId → Except JsError ProviderAvailability)
    (pid : ProviderId) : ProviderAvailability :=
  match outcome pid with
  | .ok a => a
  | .error e =>
      { id := pid, configured := isConfiguredFor pid c, available := false,
        reason := some (jsOrElse e.message "Unavailable") }

/-- `getAvailability` (fallback.ts): probe every registered adapter; the
per-adapter outcomes are supplied by `outcome`. -/
def getAvailability (c : RedocConfig)
    (outcome : ProviderId → Except JsError ProviderAvailability) :
    List ProviderAvailability :=
  ALL_PROVIDERS.map (availRecord c outcome)

/-- The `byId` map lookup of `chooseProviderOrder` (fallback.ts):
a JavaScript `Map` built from a list keeps the **last** entry for each key,
and `info?.available` is falsy when the key is absent. -/
def byIdAvailable (avail : List ProviderAvailability) (id : ProviderId) : Bool :=
  match (avail.filter (fun a => a.id = id)).getLast? with
  | some a => a.available
  | none => false

/-- The `pushIf` closure of `chooseProviderOrder` (fallback.ts): skip the
`offline` sentinel, skip identities with no registered adapter, skip
duplicates, and push only identities whose probe record says available. -/
def pushIf (avail : List ProviderAvailability) (ordered : List ProviderId)
    (id : ProviderId) : List ProviderId :=
  if id = .offline then ordered
  else if id ∉ ALL_PROVIDERS then ordered
  else if id ∈ ordered then ordered
  else if byIdAvailable avail id then ordered ++ [id]
  else ordered

/-- The default-chain tail of `chooseProviderOrder` (fallback.ts): after the
preferred push, push ollama, then every entry of the availability snapshot
whose record says available, in probe order. -/
def defaultChain (start : List ProviderId) (avail : List ProviderAvailability) :
    List ProviderId :=
  let withOllama := pushIf avail start .ollama
  avail.foldl (fun acc a => if a.available then pushIf avail acc a.id else acc) withOllama

/-- `chooseProviderOrder` (fallback.ts), as a function of the availability
snapshot it obtained from `getAvailability`.  `userOrder` is
`config.generation?.providerOrder`; the user-defined branch is taken exactly
when it is an array with positive length. -/
def chooseProviderOrder (userOrder : Option (List ProviderId))
    (preferred : Option ProviderId)
    (avail : List ProviderAvailability) : List ProviderId :=
  let afterPreferred : List ProviderId :=
    match preferred with
    | some p => pushIf avail [] p
    | none => []
  match userOrder with
  | some os =>
      if os.length > 0 then
        os.foldl (pushIf avail) afterPreferred
      else
        defaultChain afterPreferred avail
  | none => defaultChain afterPreferred avail

/-- Result of `tryProviders` (fallback.ts): on first success, the value and
the identity of the adapter that produced it; otherwise the last error seen
(`none` when the ordered list was empty). -/
inductive TryResult (E V : Type) where
  | success (value : V) (provider : ProviderId)
  | failure (lastError : Option E)
deriving DecidableEq, Repr

/-- The loop of `tryProviders` (fallback.ts), instrumented with the list of
adapters on which the operation was actually invoked, in invocation order.
`op` gives the (deterministic) outcome of `params.run(provider)`. -/
def tryProvidersGo (op : ProviderId → Except E V) :
    List ProviderId → Option E → TryResult E V × List ProviderId
  | [], lastError => (.failure lastError, [])
  | p :: rest, _lastError =>
      match op p with
      | .ok v => (.success v p, [p])
      | .error e =>
          let r := tryProvidersGo op rest (some e)
          (r.1, p :: r.2)

/-- `tryProviders` (fallback.ts): computes the fallback order and walks it.
Returns the result together with the invocation trace. -/
def tryProviders (userOrder : Option (List ProviderId)) (preferred : Option ProviderId)
    (avail : List ProviderAvailability) (op : ProviderId → Except E V) :
    TryResult E V × List ProviderId :=
  tryProvidersGo op (chooseProviderOrder userOrder preferred avail) none

/-! ### Orchestrator (src/src/ai/orchestrator.ts) -/

/-- The interface languages (`config.language`). -/
inductive Lang where
  | en
  | ptBR
  | es
deriving DecidableEq, Repr

/-- The whitespace class of JavaScript `\s` and `String.prototype.trim`
(restricted to the characters that occur in this code base). -/
def jsSpace (c : Char) : Bool :=
  c = ' ' || c = '\t' || c = '\n' || c = '\r' || c = '\x0b' || c = '\x0c'

/-- JavaScript `String.prototype.trim`. -/
def jsTrim (s : String) : String :=
  String.mk (((s.toList.dropWhile jsSpace).reverse.dropWhile jsSpace).reverse)

/-- Split a character list at every newline (the pieces keep no `\n`). -/
def splitOnNewline : List Char → List (List Char)
  | [] => [[]]
  | c :: rest =>
      if c = '\n' then [] :: splitOnNewline rest
      else
        match splitOnNewline rest with
        | h :: t => (c :: h) :: t
        | [] => [[c]]

/-- Remove one trailing carriage return from every piece that was followed
by a newline (all but the last). -/
def stripCRButLast : List (List Char) → List (List Char)
  | [] => []
  | [x] => [x]
  | x :: xs =>
      (match x.getLast? with
       | some c => if c = '\r' then x.dropLast else x
       | none => x) :: stripCRButLast xs

/-- JavaScript `diff.split(/\r?\n/)`: split on newline, removing one
carriage return immediately before each newline. -/
def splitLinesJS (s : String) : List (List Char) :=
  stripCRButLast (splitOnNewline s.toList)

/-- JavaScript `l.startsWith("+") || l.startsWith("-")` on a line. -/
def isChangedLine (l : List Char) : Bool :=
  match l with
  | c :: _ => c = '+' || c = '-'
  | [] => false

/-- The changed-line count used by `offlineQuestions` (orchestrator.ts):
lines of the diff that start with `+` or `-`. -/
def changedLineCount (diff : String) : Nat :=
  ((splitLinesJS diff).filter isChangedLine).length

/-- The per-language canned question bank of `offlineQuestions`
(orchestrator.ts). -/
def questionBank : Lang → List String
  | .en =>
      ["What was the trigger for this change? What problem were you actually solving?",
       "What approaches did you try or consider before landing on this solution?",
       "What\x27s the trickiest part of this code that someone might break without realizing?",
       "If you had more time, what would you improve or do differently here?"]
  | .ptBR =>
      ["O que motivou essa mudança? Qual problema você estava realmente resolvendo?",
       "Quais abordagens você tentou ou considerou antes de chegar nessa solução?",
       "Qual a parte mais traiçoeira desse código que alguém pode quebrar sem perceber?",
       "Se tivesse mais tempo, o que você melhoraria ou faria diferente aqui?"]
  | .es =>
      ["¿Qué motivó este cambio? ¿Qué problema estabas resolviendo realmente?",
       "¿Qué enfoques probaste o consideraste antes de llegar a esta solución?",
       "¿Cuál es la parte más delicada de este código que alguien podría romper sin darse cuenta?",
       "Si tuvieras más tiempo, ¿qué mejorarías o harías diferente aquí?"]

/-- `offlineQuestions` (orchestrator.ts): the deterministic offline question
bank, sized by the changed-line count of the diff. -/
def offlineQuestions (diff : String) (lang : Lang) : List String :=
  let isSmall := changedLineCount diff < 80
  let count := if isSmall then 3 else 4
  (questionBank lang).take count

/-- The de-numbering step of `generateQuestions` (orchestrator.ts):
`q.replace(/^\d+\s*[\).:-]\s*/, "")`. -/
def deNumber (s : String) : String :=
  match s.toList.span (·.isDigit) with
  | ([], _) => s
  | (_, rest) =>
      match rest.dropWhile jsSpace with
      | c :: rest2 =>
          if c = ')' || c = '.' || c = ':' || c = '-' then
            String.mk (rest2.dropWhile jsSpace)
          else s
      | [] => s

/-- The result-handling tail of `generateQuestions` (orchestrator.ts), as a
function of the `tryProviders` outcome.  The provider value is the
`questions` field of the parsed JSON (`none` models a response without that
field). -/
def generateQuestionsPost (res : TryResult E (Option (List String)))
    (diff : String) (lang : Lang) : List String × ProviderId :=
  match res with
  | .failure _ => (offlineQuestions diff lang, .offline)
  | .success v pid =>
      match v with
      | none => (offlineQuestions diff lang, .offline)
      | some qs =>
          if qs.length < 2 then (offlineQuestions diff lang, .offline)
          else
            let normalized := ((((qs.map jsTrim).filter (· ≠ "")).map deNumber).take 4)
            if normalized.length < 2 then (offlineQuestions diff lang, .offline)
            else (normalized, pid)

/-- `DocumentPlan.diagramType` (types.ts). -/
inductive DiagramType where
  | sequence
  | flowchart
  | er
  | state
  | architecture
deriving DecidableEq, Repr

/-- `DocumentPlan.tableType` (types.ts). -/
inductive TableType where
  | comparison
  | tradeoffs
  | steps
  | options
deriving DecidableEq, Repr

/-- `ImpactedFile` (types.ts). -/
structure ImpactedFile where
  file : String
  reason : String
deriving DecidableEq, Repr

/-- `DocumentPlan` (types.ts), after the sanity defaults of `planDocument`
have been applied (so the required fields are present). -/
structure DocumentPlan where
  intent : String
  intentRationale : String
  impactedFiles : List ImpactedFile
  shouldGenerateDiagram : Bool
  diagramRationale : Option String
  diagramType : Option DiagramType
  diagramFocus : Option String
  shouldGenerateTable : Bool
  tableRationale : Option String
  tableType : Option TableType
  tableFocus : Option String
  keyInsights : List String
  complexity : String
  skipGeneration : Bool
  skipReason : Option String
deriving DecidableEq, Repr

/-- The raw plan as returned by a provider's `chatJson` before the
post-processing in `planDocument`: every field may be absent (the JSON the
model returned is only cast, never checked, in the source). -/
structure RawPlan where
  intent : Option String := none
  intentRationale : Option String := none
  impactedFiles : Option (List ImpactedFile) := none
  shouldGenerateDiagram : Option Bool := none
  diagramRationale : Option String := none
  diagramType : Option DiagramType := none
  diagramFocus : Option String := none
  shouldGenerateTable : Option Bool := none
  tableRationale : Option String := none
  tableType : Option TableType := none
  tableFocus : Option String := none
  keyInsights : Option (List String) := none
  complexity : Option String := none
  skipGeneration : Option Bool := none
  skipReason : Option String := none
deriving DecidableEq, Repr

/-- The post-processing of a successful `planDocument` result
(orchestrator.ts): first the non-duplication overrides, then the sanity
defaults. -/
def planPost (raw : RawPlan) (hasDeveloperDiagrams hasDeveloperTables : Bool) : DocumentPlan :=
  let diag := if hasDeveloperDiagrams then some false else raw.shouldGenerateDiagram
  let tab := if hasDeveloperTables then some false else raw.shouldGenerateTable
  { intent := jsOrElse raw.intent "unknown"
    intentRationale := jsOrElse raw.intentRationale ""
    impactedFiles := raw.impactedFiles.getD []
    shouldGenerateDiagram := diag.getD false
    diagramRationale := raw.diagramRationale
    diagramType := raw.diagramType
    diagramFocus := raw.diagramFocus
    shouldGenerateTable := tab.getD false
    tableRationale := raw.tableRationale
    tableType := raw.tableType
    tableFocus := raw.tableFocus
    keyInsights := raw.keyInsights.getD []
    complexity := jsOrElse raw.complexity "standard"
    skipGeneration := raw.skipGeneration.getD false
    skipReason := raw.skipReason }

/-- `offlinePlan` (orchestrator.ts).  Its two arguments are accepted but not
used, exactly as in the source. -/
def offlinePlan (_hasDiagram _hasTable : Bool) : DocumentPlan :=
  { intent := "unknown"
    intentRationale := "Analysis unavailable offline"
    impactedFiles := []
    shouldGenerateDiagram := false
    diagramRationale := none
    diagramType := none
    diagramFocus := none
    shouldGenerateTable := false
    tableRationale := none
    tableType := none
    tableFocus := none
    keyInsights := []
    complexity := "minimal"
    skipGeneration := false
    skipReason := none }

/-- The result-handling tail of `planDocument` (orchestrator.ts), as a
function of the `tryProviders` outcome. -/
def planDocument (res : TryResult E RawPlan)
    (hasDeveloperDiagrams hasDeveloperTables : Bool) : DocumentPlan × ProviderId :=
  match res with
  | .failure _ => (offlinePlan hasDeveloperDiagrams hasDeveloperTables, .offline)
  | .success raw pid => (planPost raw hasDeveloperDiagrams hasDeveloperTables, pid)

/-- `matchesAt pat hay`: `pat` is an initial segment of `hay`. -/
def matchesAt : List Char → List Char → Bool
  | [], _ => true
  | _ :: _, [] => false
  | p :: ps, h :: hs => p = h && matchesAt ps hs

/-- JavaScript `hay.indexOf(pat)` for substrings (as an `Option`). -/
def firstSubIdx : List Char → List Char → Option Nat
  | hay, pat =>
    if matchesAt pat hay then some 0
    else
      match hay with
      | [] => none
      | _ :: t => (firstSubIdx t pat).map (· + 1)

/-- JavaScript `hay.lastIndexOf(pat)` for substrings (as an `Option`). -/
def lastSubIdx : List Char → List Char → Option Nat
  | hay, pat =>
    match hay with
    | [] => if pat.isEmpty then some 0 else none
    | _ :: t =>
        match lastSubIdx t pat with
        | some k => some (k + 1)
        | none => if matchesAt pat hay then some 0 else none

/-- The result-handling tail of `generateDiagram` (orchestrator.ts): the
early return when the plan requests no diagram, the offline fallback, and
the mermaid-fence extraction/wrapping of a successful free-text result. -/
def generateDiagram (plan : DocumentPlan) (res : TryResult E String) :
    Option String × ProviderId :=
  if plan.shouldGenerateDiagram = false ∨ plan.diagramType = none then (none, .offline)
  else
    match res with
    | .failure _ => (none, .offline)
    | .success raw pid =>
        let t := jsTrim raw
        let cs := t.toList
        match firstSubIdx cs ("```mermaid".toList), lastSubIdx cs ("```".toList) with
        | some s, some e =>
            if s < e then (some (String.mk ((cs.drop s).take (e + 3 - s))), pid)
            else (some ("```mermaid\n" ++ t ++ "\n```"), pid)
        | some _, none => (some ("```mermaid\n" ++ t ++ "\n```"), pid)
        | none, _ => (some ("```mermaid\n" ++ t ++ "\n```"), pid)

/-- The result-handling tail of `generateTable` (orchestrator.ts): the early
return when the plan requests no table, the offline fallback, and the
pipe-and-newline validation of a successful free-text result. -/
def generateTable (plan : DocumentPlan) (res : TryResult E String) :
    Option String × ProviderId :=
  if plan.shouldGenerateTable = false ∨ plan.tableType = none then (none, .offline)
  else
    match res with
    | .failure _ => (none, .offline)
    | .success raw pid =>
        let t := jsTrim raw
        if t.toList.contains '|' = false ∨ t.toList.contains '\n' = false then
          (none, .offline)
        else (some t, pid)

/-! ### JSON extraction in `chatJson` (ollama.ts, cerebras.ts, gemini) -/

/-- The opening brace character. -/
def lbrace : Char := '\x7b'

/-- The closing brace character. -/
def rbrace : Char := '\x7d'

/-- JSON insignificant whitespace. -/
def jsonWs (c : Char) : Bool :=
  c = ' ' || c = '\t' || c = '\n' || c = '\r'

/-- Skip JSON whitespace. -/
def skipWs (cs : List Char) : List Char := cs.dropWhile jsonWs

/-- JSON values, as produced by `JSON.parse` (numbers are kept as their
source lexeme, which is enough to compare concrete results). -/
inductive Json where
  | null
  | bool (b : Bool)
  | num (lexeme : String)
  | str (s : String)
  | arr (elems : List Json)
  | obj (fields : List (String × Json))

/-- Hexadecimal digit value. -/
def hexVal (c : Char) : Option Nat :=
  if '0' ≤ c ∧ c ≤ '9' then some (c.toNat - '0'.toNat)
  else if 'a' ≤ c ∧ c ≤ 'f' then some (c.toNat - 'a'.toNat + 10)
  else if 'A' ≤ c ∧ c ≤ 'F' then some (c.toNat - 'A'.toNat + 10)
  else none

/-- The optional fraction part of a JSON number, returned as its lexeme. -/
def parseFracPart (cs : List Char) : Option (List Char × List Char) :=
  match cs with
  | c :: rest =>
      if c = '.' then
        let ds := rest.takeWhile Char.isDigit
        if ds.isEmpty then none else some (c :: ds, rest.drop ds.length)
      else some ([], cs)
  | [] => some ([], [])

/-- The optional exponent part of a JSON number, returned as its lexeme. -/
def parseExpPart (cs : List Char) : Option (List Char × List Char) :=
  match cs with
  | c :: rest =>
      if c = 'e' ∨ c = 'E' then
        let (sign, rest2) :=
          match rest with
          | s :: t => if s = '+' ∨ s = '-' then ([s], t) else (([] : List Char), rest)
          | [] => ([], [])
        let ds := rest2.takeWhile Char.isDigit
        if ds.isEmpty then none
        else some (c :: (sign ++ ds), rest2.drop ds.length)
      else some ([], cs)
  | [] => some ([], [])

/-- A JSON number literal (sign, integer part without leading zeros,
optional fraction and exponent), returned as its lexeme. -/
def parseNum (cs : List Char) : Option (String × List Char) :=
  let (negL, cs1) :=
    match cs with
    | c :: t => if c = '-' then (['-'], t) else (([] : List Char), cs)
    | [] => ([], [])
  let ids := cs1.takeWhile Char.isDigit
  let cs2 := cs1.drop ids.length
  match ids with
  | [] => none
  | d :: ds =>
      if d = '0' ∧ ds ≠ [] then none
      else
        match parseFracPart cs2 with
        | none => none
        | some (fl, cs3) =>
            match parseExpPart cs3 with
            | none => none
            | some (el, cs4) => some (String.mk (negL ++ ids ++ fl ++ el), cs4)

/-- The body of a JSON string literal after the opening quote, with escape
processing; fuel-bounded recursion (one unit per character). -/
def parseStrBody : Nat → List Char → Option (List Char × List Char)
  | 0, _ => none
  | _ + 1, [] => none
  | fuel + 1, c :: rest =>
      if c = '"' then some ([], rest)
      else if c = '\\' then
        match rest with
        | [] => none
        | e :: rest2 =>
            if e = 'u' then
              match rest2 with
              | h1 :: h2 :: h3 :: h4 :: rest3 =>
                  match hexVal h1, hexVal h2, hexVal h3, hexVal h4 with
                  | some a, some b, some cc, some d =>
                      let n := ((a * 16 + b) * 16 + cc) * 16 + d
                      (parseStrBody fuel rest3).map
                        (fun p => (Char.ofNat n :: p.1, p.2))
                  | _, _, _, _ => none
              | _ => none
            else
              let decoded : Option Char :=
                if e = '"' then some '"'
                else if e = '\\' then some '\\'
                else if e = '/' then some '/'
                else if e = 'b' then some '\x08'
                else if e = 'f' then some '\x0c'
                else if e = 'n' then some '\n'
                else if e = 'r' then some '\r'
                else if e = 't' then some '\t'
                else none
              match decoded with
              | none => none
              | some d => (parseStrBody fuel rest2).map (fun p => (d :: p.1, p.2))
      else if c.toNat < 0x20 then none
      else (parseStrBody fuel rest).map (fun p => (c :: p.1, p.2))

mutual

/-- A JSON value (fuel-bounded recursive-descent, mirroring `JSON.parse`). -/
def parseVal : Nat → List Char → Option (Json × List Char)
  | 0, _ => none
  | fuel + 1, cs =>
      match skipWs cs with
      | [] => none
      | c :: rest =>
          if c = lbrace then
            match skipWs rest with
            | d :: rest2 =>
                if d = rbrace then some (.obj [], rest2)
                else (parseMembers fuel (skipWs rest)).map (fun p => (Json.obj p.1, p.2))
            | [] => none
          else if c = '[' then
            match skipWs rest with
            | d :: rest2 =>
                if d = ']' then some (.arr [], rest2)
                else (parseElems fuel (skipWs rest)).map (fun p => (Json.arr p.1, p.2))
            | [] => none
          else if c = '"' then
            (parseStrBody (rest.length + 1) rest).map (fun p => (Json.str (String.mk p.1), p.2))
          else if matchesAt "true".toList (c :: rest) then some (.bool true, rest.drop 3)
          else if matchesAt "false".toList (c :: rest) then some (.bool false, rest.drop 4)
          else if matchesAt "null".toList (c :: rest) then some (.null, rest.drop 3)
          else
            (parseNum (c :: rest)).map (fun p => (Json.num p.1, p.2))

/-- The members of a JSON object, up to and including the closing brace. -/
def parseMembers : Nat → List Char → Option (List (String × Json) × List Char)
  | 0, _ => none
  | fuel + 1, cs =>
      match skipWs cs with
      | c :: rest =>
          if c = '"' then
            match parseStrBody (rest.length + 1) rest with
            | none => none
            | some (key, rest2) =>
                match skipWs rest2 with
                | d :: rest3 =>
                    if d = ':' then
                      match parseVal fuel rest3 with
                      | none => none
                      | some (v, rest4) =>
                          match skipWs rest4 with
                          | e :: rest5 =>
                              if e = ',' then
                                (parseMembers fuel rest5).map
                                  (fun p => ((String.mk key, v) :: p.1, p.2))
                              else if e = rbrace then
                                some ([(String.mk key, v)], rest5)
                              else none
                          | [] => none
                    else none
                | [] => none
          else none
      | [] => none

/-- The elements of a JSON array, up to and including the closing bracket. -/
def parseElems : Nat → List Char → Option (List Json × List Char)
  | 0, _ => none
  | fuel + 1, cs =>
      match parseVal fuel cs with
      | none => none
      | some (v, rest) =>
          match skipWs rest with
          | e :: rest2 =>
              if e = ',' then
                (parseElems fuel rest2).map (fun p => (v :: p.1, p.2))
              else if e = ']' then some ([v], rest2)
              else none
          | [] => none

end

/-- `JSON.parse`: a single JSON value spanning the entire input (only
whitespace may surround it). -/
def jsonParse (s : String) : Option Json :=
  let cs := s.toList
  match parseVal (2 * cs.length + 2) cs with
  | some (v, rest) => if skipWs rest = [] then some v else none
  | none => none

/-- JavaScript `cs.indexOf(t)` for a single character. -/
def firstIdxOfChar (t : Char) : List Char → Option Nat
  | [] => none
  | c :: rest => if c = t then some 0 else (firstIdxOfChar t rest).map (· + 1)

/-- JavaScript `cs.lastIndexOf(t)` for a single character. -/
def lastIdxOfChar (t : Char) : List Char → Option Nat
  | [] => none
  | c :: rest =>
      match lastIdxOfChar t rest with
      | some k => some (k + 1)
      | none => if c = t then some 0 else none

/-- The errors a `chatJson` implementation can fail with: the explicit
"returned non-JSON" `ProviderError`, or the exception thrown by
`JSON.parse` on the extracted slice. -/
inductive ChatJsonErr where
  | nonJson (msg : String)
  | parseErr
deriving DecidableEq, Repr

/-- The JSON-extraction tail shared by `OllamaProvider.chatJson`
(ollama.ts), `CerebrasProvider.chatJson` (cerebras.ts) and
`GeminiProvider.chatJson` (part_005): take the slice from the first
opening brace to the last closing brace of the response text and run
`JSON.parse` on it. -/
def jsonFromText (nonJsonMsg : String) (text : String) : Except ChatJsonErr Json :=
  match firstIdxOfChar lbrace text.toList, lastIdxOfChar rbrace text.toList with
  | some s, some e =>
      if e ≤ s then .error (.nonJson nonJsonMsg)
      else
        match jsonParse (String.mk ((text.toList.drop s).take (e + 1 - s))) with
        | some v => .ok v
        | none => .error .parseErr
  | some _, none => .error (.nonJson nonJsonMsg)
  | none, _ => .error (.nonJson nonJsonMsg)

/-- `OllamaProvider.chatJson` (ollama.ts), as a function of the free-text
response produced by `chatRaw`. -/
def ollamaChatJsonOf (text : String) : Except ChatJsonErr Json :=
  jsonFromText "Ollama returned non-JSON" text

/-- `CerebrasProvider.chatJson` (cerebras.ts), as a function of the
free-text response produced by `chatText`. -/
def cerebrasChatJsonOf (text : String) : Except ChatJsonErr Json :=
  jsonFromText "Cerebras returned non-JSON" text

/-- `GeminiProvider.chatJson` (part_005), as a function of the free-text
response produced by `chatText`. -/
def geminiChatJsonOf (text : String) : Except ChatJsonErr Json :=
  jsonFromText "Gemini returned non-JSON" text

/-- Brace-depth scan: the shortest balanced span that starts at the current
position (`acc` holds the consumed part, `depth` the current nesting). -/
def balGo (depth : Nat) (acc : List Char) : List Char → Option (List Char)
  | [] => none
  | c :: rest =>
      if c = rbrace then
        if depth = 1 then some (acc ++ [c])
        else balGo (depth - 1) (acc ++ [c]) rest
      else if c = lbrace then balGo (depth + 1) (acc ++ [c]) rest
      else balGo depth (acc ++ [c]) rest

/-- Modelled from the spec wording of §4.1: "the first balanced `{...}`
span of the response text" — the balanced span with the leftmost start
(and, for that start, the earliest end). -/
def firstBalancedSpan : List Char → Option (List Char)
  | [] => none
  | c :: rest =>
      if c = lbrace then
        match balGo 1 [c] rest with
        | some sp => some sp
        | none => firstBalancedSpan rest
      else firstBalancedSpan rest

/-- Modelled from the spec wording of §4.1: `chatJson` as the claim
describes it — parse the first balanced brace span of the text. -/
def chatJsonClaimed (nonJsonMsg : String) (text : String) : Except ChatJsonErr Json :=
  match firstBalancedSpan text.toList with
  | none => .error (.nonJson nonJsonMsg)
  | some sp =>
      match jsonParse (String.mk sp) with
      | some v => .ok v
      | none => .error .parseErr

/-! ### Spec-side descriptions used for refinement comparisons -/

/-- A backend is reachable according to the availability snapshot. -/
def reachableIn (avail : List ProviderAvailability) (id : ProviderId) : Bool :=
  avail.any (fun a => a.id = id && a.available)

/-- Modelled from the spec wording of §4.3 step 4 (the default chain, no
user-defined order): "push `preferred` first, then push the local
self-hosted backend if reachable, then push every other reachable backend
in the order returned by the probe", unreachable backends excluded and the
`offline` sentinel never pushed. -/
def specDefaultOrder (preferred : Option ProviderId)
    (avail : List ProviderAvailability) : List ProviderId :=
  let first : List ProviderId :=
    match preferred with
    | some p => if p ≠ .offline ∧ reachableIn avail p = true then [p] else []
    | none => []
  let second : List ProviderId :=
    if reachableIn avail .ollama = true ∧ .ollama ∉ first then first ++ [.ollama]
    else first
  second ++ (((avail.filter (·.available)).map (·.id)).filter (fun id => id ∉ second))

/-- The behavior claim C5 states for an adapter's `isAvailable`, as a
predicate on an adapter model `f` (with configuration predicate `isConf`):
unconfigured → an immediate unreachable result, independent of the network;
configured → a connectivity probe is performed and a probe failure is
captured as the reason with `isReachable = false`. -/
def isAvailableClaim (isConf : RedocConfig → Bool)
    (f : RedocConfig → ProbeOutcome → ProviderAvailability) : Prop :=
  (∀ c po po', isConf c = false → f c po = f c po')
  ∧ (∀ c po, isConf c = false → (f c po).available = false)
  ∧ (∀ c m, isConf c = true → m ≠ "" →
      (f c (.err (some m))).available = false ∧ (f c (.err (some m))).reason = some m)

/-- The invariant `pushIf` maintains on its accumulator: no duplicates, no
`offline` sentinel, only registered and probe-reachable identities. -/
def GoodAcc (avail : List ProviderAvailability) (acc : List ProviderId) : Prop :=
  acc.Nodup ∧ ∀ x ∈ acc, x ≠ .offline ∧ x ∈ ALL_PROVIDERS ∧ byIdAvailable avail x = true

/-! ### Helper lemmas -/

/-- `pushIf` either leaves the accumulator unchanged or appends the pushed
identity, and in the latter case the identity passed every guard. -/
lemma pushIf_eq_self_or (avail : List ProviderAvailability) (acc : List ProviderId)
    (id : ProviderId) :
    pushIf avail acc id = acc ∨
      (id ≠ .offline ∧ id ∈ ALL_PROVIDERS ∧ id ∉ acc ∧ byIdAvailable avail id = true ∧
        pushIf avail acc id = acc ++ [id]) := by
  unfold pushIf
  by_cases h1 : id = .offline
  · simp [h1]
  · by_cases h2 : id ∈ ALL_PROVIDERS
    · by_cases h3 : id ∈ acc
      · simp [h1, h2, h3]
      · by_cases h4 : byIdAvailable avail id = true
        · right
          exact ⟨h1, h2, h3, h4, by simp [h1, h2, h3, h4]⟩
        · left
          simp [h1, h2, h3, h4]
    · simp [h1, h2]

lemma goodAcc_nil (avail : List ProviderAvailability) : GoodAcc avail [] :=
  ⟨List.nodup_nil, by simp⟩

lemma pushIf_good {avail : List ProviderAvailability} {acc : List ProviderId}
    (id : ProviderId) (h : GoodAcc avail acc) : GoodAcc avail (pushIf avail acc id) := by
  rcases pushIf_eq_self_or avail acc id with he | ⟨h1, h2, h3, h4, he⟩ <;> rw [he]
  · exact h
  · refine ⟨?_, ?_⟩
    · simp [List.nodup_append, h.1, h3]
    · intro x hx
      rcases List.mem_append.mp hx with hx | hx
      · exact h.2 x hx
      · simp at hx
        subst hx
        exact ⟨h1, h2, h4⟩

lemma pushIf_starts (avail : List ProviderAvailability) (acc : List ProviderId)
    (id : ProviderId) : ∃ t, pushIf avail acc id = acc ++ t := by
  rcases pushIf_eq_self_or avail acc id with he | ⟨_, _, _, _, he⟩
  · exact ⟨[], by simp [he]⟩
  · exact ⟨[id], he⟩

lemma pushIf_sup {avail : List ProviderAvailability} {acc : List ProviderId}
    {id x : ProviderId} (hx : x ∈ pushIf avail acc id) : x ∈ acc ∨ x = id := by
  rcases pushIf_eq_self_or avail acc id with he | ⟨_, _, _, _, he⟩
  · exact Or.inl (he ▸ hx)
  · rw [he] at hx
    rcases List.mem_append.mp hx with hx | hx
    · exact Or.inl hx
    · simp at hx
      exact Or.inr hx

lemma foldl_pushIf_good {avail : List ProviderAvailability} :
    ∀ (l : List ProviderId) (acc : List ProviderId), GoodAcc avail acc →
      GoodAcc avail (l.foldl (pushIf avail) acc)
  | [], _, h => h
  | _ :: tl, _, h => foldl_pushIf_good tl _ (pushIf_good _ h)

lemma foldl_pushIf_starts {avail : List ProviderAvailability} :
    ∀ (l : List ProviderId) (acc : List ProviderId),
      ∃ t, l.foldl (pushIf avail) acc = acc ++ t := by
  intro l
  induction l with
  | nil => exact fun acc => ⟨[], by simp⟩
  | cons hd tl ih =>
      intro acc
      rcases pushIf_starts avail acc hd with ⟨t0, ht0⟩
      rcases ih (pushIf avail acc hd) with ⟨t, ht⟩
      rw [ht0] at ht
      exact ⟨t0 ++ t, by simp [List.foldl_cons, ht0, ht]⟩

lemma foldl_pushIf_sup {avail : List ProviderAvailability} :
    ∀ (l : List ProviderId) (acc : List ProviderId) (x : ProviderId),
      x ∈ l.foldl (pushIf avail) acc → x ∈ acc ∨ x ∈ l := by
  intro l
  induction l with
  | nil => exact fun acc x hx => Or.inl hx
  | cons hd tl ih =>
      intro acc x hx
      rcases ih (pushIf avail acc hd) x hx with hx' | hx'
      · rcases pushIf_sup hx' with h | h
        · exact Or.inl h
        · exact Or.inr (by simp [h])
      · exact Or.inr (by simp [hx'])

lemma foldl_condPush_good {avail : List ProviderAvailability} :
    ∀ (l : List ProviderAvailability) (acc : List ProviderId), GoodAcc avail acc →
      GoodAcc avail
        (l.foldl (fun acc a => if a.available then pushIf avail acc a.id else acc) acc)
  | [], _, h => h
  | a :: tl, acc, h => by
      rw [List.foldl_cons]
      by_cases ha : a.available
      · exact foldl_condPush_good tl _ (by rw [if_pos ha]; exact pushIf_good _ h)
      · exact foldl_condPush_good tl _ (by rw [if_neg ha]; exact h)

lemma defaultChain_good {avail : List ProviderAvailability} {start : List ProviderId}
    (h : GoodAcc avail start) : GoodAcc avail (defaultChain start avail) :=
  foldl_condPush_good avail _ (pushIf_good _ h)

/-- The computed fallback order satisfies the accumulator invariant, in both
the user-defined and the default branch. -/
lemma chooseProviderOrder_good (userOrder : Option (List ProviderId))
    (preferred : Option ProviderId) (avail : List ProviderAvailability) :
    GoodAcc avail (chooseProviderOrder userOrder preferred avail) := by
  have hstart : GoodAcc avail
      (match preferred with
       | some p => pushIf avail [] p
       | none => []) := by
    cases preferred with
    | none => exact goodAcc_nil avail
    | some p => exact pushIf_good p (goodAcc_nil avail)
  unfold chooseProviderOrder
  cases userOrder with
  | none => exact defaultChain_good hstart
  | some os =>
      by_cases hos : os.length > 0
      · simpa [hos] using foldl_pushIf_good os _ hstart
      · simpa [hos] using defaultChain_good hstart

/-- The loop of `tryProviders` on a list whose initial segment fails and is
followed by a succeeding adapter: the first success is returned and the
invocation trace is exactly the failing initial segment plus the succeeding
adapter. -/
lemma tryProvidersGo_first_success {E V : Type} (op : ProviderId → Except E V) :
    ∀ (pre : List ProviderId) (p : ProviderId) (post : List ProviderId) (v : V)
      (last : Option E),
      (∀ q ∈ pre, ∃ e, op q = .error e) → op p = .ok v →
      tryProvidersGo op (pre ++ p :: post) last = (.success v p, pre ++ [p])
  | [], p, post, v, last, _, hp => by
      simp [tryProvidersGo, hp]
  | q :: pre, p, post, v, last, hpre, hp => by
      rcases hpre q (by simp) with ⟨e, he⟩
      have ih := tryProvidersGo_first_success op pre p post v (some e)
        (fun r hr => hpre r (by simp [hr])) hp
      simp [tryProvidersGo, he, ih]

/-- A found first index of a character really carries that character. -/
lemma firstIdxOfChar_get {t : Char} :
    ∀ {cs : List Char} {i : Nat}, firstIdxOfChar t cs = some i → cs.get? i = some t := by
  intro cs
  induction cs with
  | nil => intro i h; simp [firstIdxOfChar] at h
  | cons c rest ih =>
      intro i h
      unfold firstIdxOfChar at h
      by_cases hc : c = t
      · rw [if_pos hc] at h
        cases h
        simp [hc]
      · rw [if_neg hc] at h
        rcases Option.map_eq_some'.mp h with ⟨k, hk, hki⟩
        subst hki
        simpa using ih hk

/-- A found last index of a character really carries that character. -/
lemma lastIdxOfChar_get {t : Char} :
    ∀ {cs : List Char} {i : Nat}, lastIdxOfChar t cs = some i → cs.get? i = some t := by
  intro cs
  induction cs with
  | nil => intro i h; simp [lastIdxOfChar] at h
  | cons c rest ih =>
      intro i h
      unfold lastIdxOfChar at h
      cases hrec : lastIdxOfChar t rest with
      | some k =>
          rw [hrec] at h
          cases h
          simpa using ih hrec
      | none =>
          rw [hrec] at h
          by_cases hc : c = t
          · rw [if_pos hc] at h
            cases h
            simp [hc]
          · rw [if_neg hc] at h
            cases h

/-! ### Claims -/

/-- C1: for every configuration, preferred provider and caller-supplied
operation, `tryProviders` invokes the operation on the adapters of the
computed fallback order strictly in sequence; on the first adapter whose
operation succeeds it returns immediately with that value and that
adapter's identity, the operation is never invoked on any adapter later in
the order (the invocation trace is exactly the failing initial segment
followed by the succeeding adapter), and no adapter is retried (the trace
has no duplicates). -/
theorem tryProviders_first_success_wins {E V : Type}
    (userOrder : Option (List ProviderId)) (preferred : Option ProviderId)
    (avail : List ProviderAvailability) (op : ProviderId → Except E V)
    (pre : List ProviderId) (p : ProviderId) (post : List ProviderId) (v : V)
    (horder : chooseProviderOrder userOrder preferred avail = pre ++ p :: post)
    (hpre : ∀ q ∈ pre, ∃ e, op q = .error e)
    (hp : op p = .ok v) :
    tryProviders userOrder preferred avail op = (.success v p, pre ++ [p])
    ∧ (∀ z ∈ post, z ∉ pre ++ [p])
    ∧ (pre ++ [p]).Nodup := by
  have hnodup : (pre ++ p :: post).Nodup :=
    horder ▸ (chooseProviderOrder_good userOrder preferred avail).1
  refine ⟨?_, ?_, ?_⟩
  · unfold tryProviders
    rw [horder]
    exact tryProvidersGo_first_success op pre p post v none hpre hp
  · intro z hz hcontra
    rcases List.mem_append.mp hcontra with hzpre | hzp
    · exact (List.nodup_append.mp hnodup).2.2 hzpre (by simp [hz])
    · have hp_not : p ∉ post :=
        (List.nodup_cons.mp (List.nodup_append.mp hnodup).2.1).1
      simp at hzp
      exact hp_not (hzp ▸ hz)
  · have hsub : (pre ++ [p]).Sublist (pre ++ p :: post) :=
      List.Sublist.append_left (by simp) pre
    exact hnodup.sublist hsub

/-- Witness for C1 (spec scenario P3): with ollama failing, groq
succeeding and gemini, cerebras never reached, `tryProviders` returns
groq's value with trace `[ollama, groq]`, and gemini is not in the trace. -/
theorem tryProviders_first_success_wins_witness :
    tryProviders none none
        [⟨.groq, true, true, none⟩, ⟨.gemini, true, true, none⟩,
         ⟨.cerebras, true, true, none⟩, ⟨.ollama, true, true, none⟩]
        (fun pid => if pid = .ollama then Except.error "fail"
                    else if pid = .groq then Except.ok (1 : Nat) else Except.ok 2)
      = (.success 1 .groq, [.ollama, .groq])
    ∧ ProviderId.gemini ∉ ([.ollama, .groq] : List ProviderId) := by
  have h := tryProviders_first_success_wins none none
    [⟨.groq, true, true, none⟩, ⟨.gemini, true, true, none⟩,
     ⟨.cerebras, true, true, none⟩, ⟨.ollama, true, true, none⟩]
    (fun pid => if pid = .ollama then Except.error "fail"
                else if pid = .groq then Except.ok (1 : Nat) else Except.ok 2)
    [.ollama] .groq [.gemini, .cerebras] 1
    (by rfl)
    (by
      intro q hq
      simp at hq
      subst hq
      exact ⟨"fail", rfl⟩)
    (by rfl)
  exact ⟨h.1, h.2.1 .gemini (by simp)⟩

set_option maxHeartbeats 3200000 in
/-- C2: with no user-defined provider order, `chooseProviderOrder` returns
exactly the spec's default chain — the preferred provider first (if given
and reachable), then ollama if reachable and not already present, then
every other reachable backend in probe order, unreachable backends
excluded — whenever the snapshot has one record per registered adapter in
probe order (which is what `getAvailability` produces). -/
theorem chooseProviderOrder_default_matches_spec
    (avail : List ProviderAvailability) (preferred : Option ProviderId)
    (h : avail.map (·.id) = ALL_PROVIDERS) :
    chooseProviderOrder none preferred avail = specDefaultOrder preferred avail := by
  rcases avail with _ | ⟨a1, _ | ⟨a2, _ | ⟨a3, _ | ⟨a4, _ | ⟨a5, t⟩⟩⟩⟩⟩ <;>
    simp [ALL_PROVIDERS] at h
  obtain ⟨h1, h2, h3, h4⟩ := h
  obtain ⟨id1, c1, b1, r1⟩ := a1
  obtain ⟨id2, c2, b2, r2⟩ := a2
  obtain ⟨id3, c3, b3, r3⟩ := a3
  obtain ⟨id4, c4, b4, r4⟩ := a4
  simp only at h1 h2 h3 h4
  subst h1 h2 h3 h4
  cases b1 <;> cases b2 <;> cases b3 <;> cases b4 <;>
    (rcases preferred with _ | p) <;>
    first
      | rfl
      | (cases p <;> rfl)

/-- Witness for C2 (spec scenario P1): availability {groq reachable,
gemini unreachable, cerebras reachable, ollama reachable}, preferred
cerebras, no user order — the computed order is exactly
[cerebras, ollama, groq]. -/
theorem chooseProviderOrder_default_matches_spec_witness :
    chooseProviderOrder none (some .cerebras)
        [⟨.groq, true, true, none⟩, ⟨.gemini, true, false, some "down"⟩,
         ⟨.cerebras, true, true, none⟩, ⟨.ollama, true, true, none⟩]
      = specDefaultOrder (some .cerebras)
          [⟨.groq, true, true, none⟩, ⟨.gemini, true, false, some "down"⟩,
           ⟨.cerebras, true, true, none⟩, ⟨.ollama, true, true, none⟩]
    ∧ specDefaultOrder (some .cerebras)
          [⟨.groq, true, true, none⟩, ⟨.gemini, true, false, some "down"⟩,
           ⟨.cerebras, true, true, none⟩, ⟨.ollama, true, true, none⟩]
      = [.cerebras, .ollama, .groq] := by
  refine ⟨chooseProviderOrder_default_matches_spec _ _ (by rfl), by decide⟩

/-- C7: with a non-empty user-defined provider order, the computed order
contains no duplicate identity (a preferred provider repeated later in the
user-defined order is attempted only once), never contains the `offline`
sentinel, contains only identities the probe reported reachable, contains
only the preferred provider and entries of the user-defined order, and
starts with the preferred provider whenever that one is pushable. -/
theorem chooseProviderOrder_userOrder_dedup
    (avail : List ProviderAvailability) (preferred : Option ProviderId)
    (userOrder : List ProviderId) (hne : userOrder ≠ []) :
    (chooseProviderOrder (some userOrder) preferred avail).Nodup
    ∧ ProviderId.offline ∉ chooseProviderOrder (some userOrder) preferred avail
    ∧ (∀ x ∈ chooseProviderOrder (some userOrder) preferred avail,
        byIdAvailable avail x = true)
    ∧ (∀ x ∈ chooseProviderOrder (some userOrder) preferred avail,
        x ∈ preferred.toList ++ userOrder)
    ∧ (∀ p, preferred = some p → p ≠ .offline → byIdAvailable avail p = true →
        (chooseProviderOrder (some userOrder) preferred avail).head? = some p) := by
  have hlen : userOrder.length > 0 := List.length_pos.mpr hne
  have hgood := chooseProviderOrder_good (some userOrder) preferred avail
  refine ⟨hgood.1, ?_, ?_, ?_, ?_⟩
  · intro hmem
    exact (hgood.2 _ hmem).1 rfl
  · intro x hx
    exact (hgood.2 x hx).2.2
  · intro x hx
    cases preferred with
    | none =>
        have heq : chooseProviderOrder (some userOrder) none avail =
            userOrder.foldl (pushIf avail) [] := by
          unfold chooseProviderOrder
          simp [hlen]
        rw [heq] at hx
        rcases foldl_pushIf_sup userOrder _ x hx with h | h
        · simp at h
        · simp [h]
    | some p =>
        have heq : chooseProviderOrder (some userOrder) (some p) avail =
            userOrder.foldl (pushIf avail) (pushIf avail [] p) := by
          unfold chooseProviderOrder
          simp [hlen]
        rw [heq] at hx
        rcases foldl_pushIf_sup userOrder _ x hx with h | h
        · rcases pushIf_sup h with h' | h'
          · simp at h'
          · simp [h']
        · simp [h]
  · intro p hpf hpne hpav
    subst hpf
    have heq : chooseProviderOrder (some userOrder) (some p) avail =
        userOrder.foldl (pushIf avail) (pushIf avail [] p) := by
      unfold chooseProviderOrder
      simp [hlen]
    have hall : p ∈ ALL_PROVIDERS := by
      cases p <;> first | exact absurd rfl hpne | simp [ALL_PROVIDERS]
    have hpush : pushIf avail [] p = [p] := by
      simp [pushIf, hpne, hall, hpav]
    rw [heq, hpush]
    rcases foldl_pushIf_starts userOrder [p] with ⟨t, ht⟩
    rw [ht]
    simp

/-- Witness for C7 (spec scenario P2): preferred groq also appears later
in the user-defined order [groq, cerebras, groq]; the computed order is
duplicate-free, offline-free, and headed by groq. -/
theorem chooseProviderOrder_userOrder_dedup_witness :
    (chooseProviderOrder (some [.groq, .cerebras, .groq]) (some .groq)
        [⟨.groq, true, true, none⟩, ⟨.gemini, true, true, none⟩,
         ⟨.cerebras, true, true, none⟩, ⟨.ollama, true, true, none⟩]).Nodup
    ∧ ProviderId.offline ∉ chooseProviderOrder (some [.groq, .cerebras, .groq]) (some .groq)
        [⟨.groq, true, true, none⟩, ⟨.gemini, true, true, none⟩,
         ⟨.cerebras, true, true, none⟩, ⟨.ollama, true, true, none⟩]
    ∧ (chooseProviderOrder (some [.groq, .cerebras, .groq]) (some .groq)
        [⟨.groq, true, true, none⟩, ⟨.gemini, true, true, none⟩,
         ⟨.cerebras, true, true, none⟩, ⟨.ollama, true, true, none⟩]).head? = some .groq := by
  have h := chooseProviderOrder_userOrder_dedup
    [⟨.groq, true, true, none⟩, ⟨.gemini, true, true, none⟩,
     ⟨.cerebras, true, true, none⟩, ⟨.ollama, true, true, none⟩]
    (some .groq) [.groq, .cerebras, .groq] (by simp)
  exact ⟨h.1, h.2.1, h.2.2.2.2 .groq rfl (by decide) (by decide)⟩

/-- C8: `getAvailability` yields exactly one record per registered adapter
(at that adapter's position in the registry); an adapter whose probe
rejects is converted to a `configured = isConfigured(config)`,
`available = false`, reason = error-message record; and the record each
adapter contributes depends only on that adapter's own probe outcome, so a
probing bug in one adapter never affects the records of the others. -/
theorem getAvailability_per_adapter (c : RedocConfig)
    (outcome outcome2 : ProviderId → Except JsError ProviderAvailability) :
    (getAvailability c outcome).length = ALL_PROVIDERS.length
    ∧ (∀ i pid, ALL_PROVIDERS.get? i = some pid →
        (getAvailability c outcome).get? i = some (availRecord c outcome pid))
    ∧ (∀ pid e, outcome pid = .error e →
        availRecord c outcome pid =
          { id := pid, configured := isConfiguredFor pid c, available := false,
            reason := some (jsOrElse e.message "Unavailable") })
    ∧ (∀ i pid, ALL_PROVIDERS.get? i = some pid → outcome pid = outcome2 pid →
        (getAvailability c outcome).get? i = (getAvailability c outcome2).get? i) := by
  refine ⟨by simp [getAvailability], ?_, ?_, ?_⟩
  · intro i pid hi
    rw [getAvailability, List.get?_map, hi]
    rfl
  · intro pid e he
    unfold availRecord
    rw [he]
  · intro i pid hi hsame
    rw [getAvailability, getAvailability, List.get?_map, List.get?_map, hi]
    simp [availRecord, hsame]

/-- Witness for C8: with gemini's probe rejecting with message "boom" and
groq configured, the gemini slot holds the converted failure record and the
groq slot is unaffected by whether gemini rejected. -/
theorem getAvailability_per_adapter_witness :
    (getAvailability { groqApiKey := some "gsk" }
        (fun pid => if pid = .gemini then .error ⟨some "boom"⟩
                    else .ok ⟨pid, true, true, none⟩)).get? 1
      = some ⟨.gemini, false, false, some "boom"⟩
    ∧ (getAvailability { groqApiKey := some "gsk" }
          (fun pid => if pid = .gemini then .error ⟨some "boom"⟩
                      else .ok ⟨pid, true, true, none⟩)).get? 0
      = (getAvailability { groqApiKey := some "gsk" }
          (fun pid => .ok ⟨pid, true, true, none⟩)).get? 0 := by
  have h := getAvailability_per_adapter { groqApiKey := some "gsk" }
    (fun pid => if pid = .gemini then .error ⟨some "boom"⟩ else .ok ⟨pid, true, true, none⟩)
    (fun pid => .ok ⟨pid, true, true, none⟩)
  constructor
  · have e1 := h.2.1 1 .gemini (by rfl)
    have e2 := h.2.2.1 .gemini ⟨some "boom"⟩ (by rfl)
    rw [e1, e2]
    rfl
  · exact h.2.2.2 0 .groq (by rfl) (by rfl)

/-- C3: whenever a provider returned a plan value, `planDocument` forces
`shouldGenerateDiagram` to `false` if the caller said the developer already
supplied diagrams, and `shouldGenerateTable` to `false` if the caller said
the developer already supplied tables, regardless of the raw model
output. -/
theorem planDocument_forces_flags {E : Type} (raw : RawPlan) (pid : ProviderId)
    (hasDeveloperDiagrams hasDeveloperTables : Bool) :
    (hasDeveloperDiagrams = true →
      ((planDocument (E := E) (.success raw pid) hasDeveloperDiagrams hasDeveloperTables).1).shouldGenerateDiagram = false)
    ∧ (hasDeveloperTables = true →
      ((planDocument (E := E) (.success raw pid) hasDeveloperDiagrams hasDeveloperTables).1).shouldGenerateTable = false) := by
  constructor <;> intro h <;> subst h <;> simp [planDocument, planPost]

/-- Witness for C3: a raw plan that asks for both a diagram and a table is
overridden to generate neither when the developer supplied both. -/
theorem planDocument_forces_flags_witness :
    ((planDocument (E := String)
        (.success { shouldGenerateDiagram := some true, shouldGenerateTable := some true }
          .groq) true true).1).shouldGenerateDiagram = false
    ∧ ((planDocument (E := String)
        (.success { shouldGenerateDiagram := some true, shouldGenerateTable := some true }
          .groq) true true).1).shouldGenerateTable = false := by
  have h := planDocument_forces_flags (E := String)
    { shouldGenerateDiagram := some true, shouldGenerateTable := some true } .groq true true
  exact ⟨h.1 rfl, h.2 rfl⟩

/-- C4, counterexample: for a diff with fewer than 80 changed lines and a
totally failed provider run, the offline question bank has 3 questions,
not the 2 the claim states (the source sizes the bank `isSmall ? 3 : 4`). -/
theorem generateQuestions_offline_size_counterexample :
    changedLineCount "+ const x = 1;" < 80
    ∧ (generateQuestionsPost (E := String) (.failure none) "+ const x = 1;" .en).1.length = 3
    ∧ ¬ (generateQuestionsPost (E := String) (.failure none) "+ const x = 1;" .en).1.length = 2
    ∧ (generateQuestionsPost (E := String) (.failure none) "+ const x = 1;" .en).2 = .offline := by
  refine ⟨by decide, by rfl, by decide, by rfl⟩

/-- C4, amended: on total provider failure `generateQuestions` returns the
deterministic offline question bank sized by the diff's changed-line count
— fewer than 80 changed lines yields 3 questions, 80 or more yields 4 —
and the provider is reported as offline. -/
theorem generateQuestions_total_failure_offline {E : Type} (e : Option E)
    (diff : String) (lang : Lang) :
    generateQuestionsPost (.failure e) diff lang = (offlineQuestions diff lang, .offline)
    ∧ (changedLineCount diff < 80 → (offlineQuestions diff lang).length = 3)
    ∧ (80 ≤ changedLineCount diff → (offlineQuestions diff lang).length = 4) := by
  refine ⟨rfl, ?_, ?_⟩
  · intro h
    cases lang <;> simp [offlineQuestions, questionBank, h]
  · intro h
    have h' : ¬ changedLineCount diff < 80 := by omega
    cases lang <;> simp [offlineQuestions, questionBank, h']

/-- Witness for the amended C4: a one-line diff with total failure yields
the offline bank with 3 questions and provider offline. -/
theorem generateQuestions_total_failure_offline_witness :
    generateQuestionsPost (E := String) (.failure none) "+x" .en
      = (offlineQuestions "+x" .en, .offline)
    ∧ (offlineQuestions "+x" .en).length = 3 := by
  have h := generateQuestions_total_failure_offline (E := String) none "+x" .en
  exact ⟨h.1, h.2.1 (by decide)⟩

/-- C5, counterexample: the groq adapter does not satisfy the claimed
`isAvailable` contract — when configured it reports reachable immediately
and performs no connectivity probe, so a failing probe outcome is not
captured as an unreachable result. -/
theorem groq_isAvailable_counterexample :
    ¬ isAvailableClaim (isConfiguredFor .groq) groqIsAvailable := by
  intro h
  have h3 := (h.2.2 { groqApiKey := some "k" } "boom" (by decide) (by decide)).1
  exact absurd h3 (by decide)

/-- C5, amended: every adapter returns immediately with `isReachable =
false` and a missing-credentials reason when unconfigured (independent of
the network, and never throwing); the ollama adapter, when configured,
probes `/api/tags` and captures a thrown probe error's message (or a
non-OK status) as the reason with `isReachable = false`; the groq, gemini
and cerebras adapters perform no probe at all when configured — they
report reachable unconditionally, independent of any probe outcome. -/
theorem isAvailable_adapter_behavior :
    (∀ c po, isConfiguredFor .ollama c = false →
        ollamaIsAvailable c po =
          { id := .ollama, configured := false, available := false,
            reason := some "Missing ollamaUrl/ollamaModel" })
    ∧ (∀ c m, isConfiguredFor .ollama c = true → m ≠ "" →
        ollamaIsAvailable c (.err (some m)) =
          { id := .ollama, configured := true, available := false, reason := some m })
    ∧ (∀ c st, isConfiguredFor .ollama c = true →
        ollamaIsAvailable c (.resp false st) =
          { id := .ollama, configured := true, available := false,
            reason := some ("Ollama not reachable (" ++ toString st ++ ")") })
    ∧ (∀ c po po', groqIsAvailable c po = groqIsAvailable c po')
    ∧ (∀ c po, isConfiguredFor .groq c = false →
        groqIsAvailable c po =
          { id := .groq, configured := false, available := false,
            reason := some "Missing groqApiKey" })
    ∧ (∀ c po, isConfiguredFor .groq c = true →
        groqIsAvailable c po = { id := .groq, configured := true, available := true })
    ∧ (∀ c po po', geminiIsAvailable c po = geminiIsAvailable c po')
    ∧ (∀ c po, isConfiguredFor .gemini c = false →
        geminiIsAvailable c po =
          { id := .gemini, configured := false, available := false,
            reason := some "Missing geminiApiKey" })
    ∧ (∀ c po, isConfiguredFor .gemini c = true →
        geminiIsAvailable c po = { id := .gemini, configured := true, available := true })
    ∧ (∀ c po po', cerebrasIsAvailable c po = cerebrasIsAvailable c po')
    ∧ (∀ c po, isConfiguredFor .cerebras c = false →
        cerebrasIsAvailable c po =
          { id := .cerebras, configured := false, available := false,
            reason := some "Missing cerebrasApiKey" })
    ∧ (∀ c po, isConfiguredFor .cerebras c = true →
        cerebrasIsAvailable c po = { id := .cerebras, configured := true, available := true }) := by
  refine ⟨?_, ?_, ?_, ?_, ?_, ?_, ?_, ?_, ?_, ?_, ?_, ?_⟩
  · intro c po h
    simp [ollamaIsAvailable, h]
  · intro c m h hm
    simp [ollamaIsAvailable, h, jsOrElse, hm]
  · intro c st h
    simp [ollamaIsAvailable, h]
  · intro c po po'
    simp [groqIsAvailable]
  · intro c po h
    simp [groqIsAvailable, h]
  · intro c po h
    simp [groqIsAvailable, h]
  · intro c po po'
    simp [geminiIsAvailable]
  · intro c po h
    simp [geminiIsAvailable, h]
  · intro c po h
    simp [geminiIsAvailable, h]
  · intro c po po'
    simp [cerebrasIsAvailable]
  · intro c po h
    simp [cerebrasIsAvailable, h]
  · intro c po h
    simp [cerebrasIsAvailable, h]

/-- Witness for the amended C5: a configured ollama whose probe throws
"ECONNREFUSED" reports unreachable with that reason, while a configured
groq reports reachable under the same failing network. -/
theorem isAvailable_adapter_behavior_witness :
    ollamaIsAvailable { ollamaUrl := some "http://localhost:11434", ollamaModel := some "llama3" }
        (.err (some "ECONNREFUSED"))
      = { id := .ollama, configured := true, available := false,
          reason := some "ECONNREFUSED" }
    ∧ groqIsAvailable { groqApiKey := some "k" } (.err (some "ECONNREFUSED"))
      = { id := .groq, configured := true, available := true } := by
  have h := isAvailable_adapter_behavior
  exact ⟨h.2.1 _ "ECONNREFUSED" (by decide) (by decide),
         h.2.2.2.2.2.1 _ (.err (some "ECONNREFUSED")) (by decide)⟩

/-- C6, counterexample: on the response `x {"a":1} y {"b":2} z` the
free-text `chatJson` fails (it slices from the first `{` to the last `}`,
which does not parse), while the claimed first-balanced-span extraction
would succeed with `{a:1}`. -/
theorem chatJson_balanced_span_counterexample :
    ollamaChatJsonOf "x \x7b\"a\":1\x7d y \x7b\"b\":2\x7d z" = .error .parseErr
    ∧ chatJsonClaimed "Ollama returned non-JSON" "x \x7b\"a\":1\x7d y \x7b\"b\":2\x7d z"
      = .ok (.obj [("a", .num "1")]) :=
  ⟨rfl, rfl⟩

/-- C6, amended: the free-text `chatJson` of ollama, cerebras and gemini
extracts the span from the first `{` to the last `}` of the response text
and parses it — so `prefix {"a":1} suffix` parses as `{a:1}` — and it
fails with the "returned non-JSON" `ProviderError` whenever no `}` occurs
after a `{` (equivalently, whenever no balanced brace span exists), and
with a parse error whenever parsing the extracted span fails. -/
theorem chatJson_first_to_last_brace (msg text : String) :
    ((∀ i j, i < j → ¬(text.toList.get? i = some lbrace ∧ text.toList.get? j = some rbrace)) →
      jsonFromText msg text = .error (.nonJson msg))
    ∧ (∀ s e, firstIdxOfChar lbrace text.toList = some s →
        lastIdxOfChar rbrace text.toList = some e → s < e →
        jsonParse (String.mk ((text.toList.drop s).take (e + 1 - s))) = none →
        jsonFromText msg text = .error .parseErr)
    ∧ jsonFromText msg "prefix \x7b\"a\":1\x7d suffix" = .ok (.obj [("a", .num "1")]) := by
  refine ⟨?_, ?_, rfl⟩
  · intro h
    unfold jsonFromText
    cases hf : firstIdxOfChar lbrace text.toList with
    | none => rfl
    | some s =>
        cases hl : lastIdxOfChar rbrace text.toList with
        | none => rfl
        | some e =>
            by_cases hle : e ≤ s
            · show (if e ≤ s then (Except.error (ChatJsonErr.nonJson msg) : Except ChatJsonErr Json)
                    else match jsonParse (String.mk ((text.toList.drop s).take (e + 1 - s))) with
                      | some v => Except.ok v
                      | none => Except.error ChatJsonErr.parseErr)
                  = Except.error (ChatJsonErr.nonJson msg)
              rw [if_pos hle]
            · exact absurd ⟨firstIdxOfChar_get hf, lastIdxOfChar_get hl⟩ (h s e (by omega))
  · intro s e hf hl hse hparse
    have hred : jsonFromText msg text =
        if e ≤ s then .error (.nonJson msg)
        else
          match jsonParse (String.mk ((text.toList.drop s).take (e + 1 - s))) with
          | some v => .ok v
          | none => .error .parseErr := by
      unfold jsonFromText
      rw [hf, hl]
    rw [hred, if_neg (by omega), hparse]

/-- Witness for the amended C6: a brace-free response fails with the
"returned non-JSON" error. -/
theorem chatJson_first_to_last_brace_witness :
    jsonFromText "m" "hello" = .error (.nonJson "m") := by
  have h := chatJson_first_to_last_brace "m" "hello"
  exact h.1 (fun i j _ hc => absurd (List.get?_mem hc.1) (by decide))

/-- C9: when the plan requests a table and a provider returned a free-text
result, `generateTable` rejects the result entirely — a null table with
provider offline — unless the trimmed text contains both a pipe character
and a newline, in which case the trimmed text is returned as the table. -/
theorem generateTable_rejects_unparsable {E : Type} (plan : DocumentPlan) (raw : String)
    (pid : ProviderId) (hreq : plan.shouldGenerateTable = true)
    (htype : plan.tableType ≠ none) :
    (((jsTrim raw).toList.contains '|' = true ∧ (jsTrim raw).toList.contains '\n' = true) →
      generateTable (E := E) plan (.success raw pid) = (some (jsTrim raw), pid))
    ∧ (((jsTrim raw).toList.contains '|' = false ∨ (jsTrim raw).toList.contains '\n' = false) →
      generateTable (E := E) plan (.success raw pid) = (none, .offline)) := by
  have hcond : ¬ (plan.shouldGenerateTable = false ∨ plan.tableType = none) := by
    simp [hreq, htype]
  have hred : generateTable (E := E) plan (.success raw pid) =
      if (jsTrim raw).toList.contains '|' = false ∨ (jsTrim raw).toList.contains '\n' = false
      then (none, .offline)
      else (some (jsTrim raw), pid) := by
    unfold generateTable
    rw [if_neg hcond]
  constructor
  · rintro ⟨h1, h2⟩
    rw [hred, if_neg (by rw [h1, h2]; simp)]
  · intro h
    rw [hred, if_pos h]

/-- Witness for C9: a requested table whose free-text result has no pipe
is rejected in favor of no table at all. -/
theorem generateTable_rejects_unparsable_witness :
    generateTable (E := String)
        { offlinePlan false false with shouldGenerateTable := true, tableType := some .steps }
        (.success "no table here" .groq) = (none, .offline) := by
  have h := generateTable_rejects_unparsable (E := String)
    { offlinePlan false false with shouldGenerateTable := true, tableType := some .steps }
    "no table here" .groq (by rfl) (by decide)
  exact h.2 (Or.inl (by decide))

/-- C10: when the plan's diagram flag is false or its diagram type is null,
`generateDiagram` returns a null diagram with provider offline without
consulting the provider outcome at all (the result is independent of it);
symmetrically for `generateTable` with the table flag or table type. -/
theorem generate_skips_without_request {E : Type} (plan : DocumentPlan)
    (res res' : TryResult E String) :
    ((plan.shouldGenerateDiagram = false ∨ plan.diagramType = none) →
      generateDiagram plan res = (none, .offline)
      ∧ generateDiagram plan res = generateDiagram plan res')
    ∧ ((plan.shouldGenerateTable = false ∨ plan.tableType = none) →
      generateTable plan res = (none, .offline)
      ∧ generateTable plan res = generateTable plan res') := by
  constructor <;> intro h
  · constructor
    · unfold generateDiagram
      rw [if_pos h]
    · unfold generateDiagram
      rw [if_pos h, if_pos h]
  · constructor
    · unfold generateTable
      rw [if_pos h]
    · unfold generateTable
      rw [if_pos h, if_pos h]

/-- Witness for C10: a plan whose diagram flag is true but whose diagram
type is null produces no diagram attempt, and likewise for tables — even
though the provider outcome at hand is a success. -/
theorem generate_skips_without_request_witness :
    generateDiagram (E := String)
        { offlinePlan false false with shouldGenerateDiagram := true }
        (.success "flowchart TD" .groq) = (none, .offline)
    ∧ generateTable (E := String)
        { offlinePlan false false with shouldGenerateTable := true }
        (.success "a|b\nc|d" .groq) = (none, .offline) := by
  refine ⟨?_, ?_⟩
  · exact ((generate_skips_without_request (E := String)
      { offlinePlan false false with shouldGenerateDiagram := true }
      (.success "flowchart TD" .groq) (.failure none)).1 (Or.inr rfl)).1
  · exact ((generate_skips_without_request (E := String)
      { offlinePlan false false with shouldGenerateTable := true }
      (.success "a|b\nc|d" .groq) (.failure none)).2 (Or.inr rfl)).1

end Redoc
